import Mathlib

/-
  Verification of the chkconfig flag-management library core
  (src/lib/chkconfig.cpp) against its natural-language specification.

  The embedding models C strings and file contents as byte lists
  (`List Nat`, the terminating NUL is the end of the list), directory
  snapshots as lists of entries, and the filesystem effects of each
  library operation as pure functions over those snapshots.  Negated
  POSIX error codes are modelled as negative integers.  Allocation
  (malloc / strdup) is modelled as always succeeding; opendir, stat,
  fstat, mmap and close are modelled as succeeding whenever the file
  itself is accessible, since no claim turns on their failure.
-/

namespace Chkconfig

-- MARK: Error codes (POSIX values, as used negated by the library)

def ENOENT : Int := 2
def EINVAL : Int := 22
def EACCES : Int := 13

def CHKCONFIG_STATUS_SUCCESS : Int := 0

-- MARK: C strings

/-- Bytes of a NUL-terminated C string, without the terminator. -/
abbrev CString := List Nat

/-- ASCII tolower on a byte, as used by strncasecmp. -/
def tolower (c : Nat) : Nat := if 65 ≤ c ∧ c ≤ 90 then c + 32 else c

/-- Sign of strcmp on two byte strings: the end of the list plays the
role of the NUL terminator, which compares below every other byte. -/
def strcmp : CString → CString → Int
  | [], [] => 0
  | [], _ :: _ => -1
  | _ :: _, [] => 1
  | a :: as, b :: bs => if a < b then -1 else if b < a then 1 else strcmp as bs

/-- Sign of strncasecmp on two byte strings, comparing at most n bytes
case-insensitively; comparison also stops at the end of a string. -/
def strncasecmp : CString → CString → Nat → Int
  | _, _, 0 => 0
  | [], [], _ + 1 => 0
  | [], _ :: _, _ + 1 => -1
  | _ :: _, [], _ + 1 => 1
  | a :: as, b :: bs, n + 1 =>
    if tolower a < tolower b then -1
    else if tolower b < tolower a then 1
    else strncasecmp as bs n

-- MARK: Global state strings

/-- sOnStateString = "on" -/
def sOnStateString : CString := [111, 110]

/-- sOffStateString = "off" -/
def sOffStateString : CString := [111, 102, 102]

-- MARK: Data model

/-- chkconfig_origin_t enumeration. -/
inductive Origin
  | unknown
  | none
  | default
  | state
deriving DecidableEq, Repr

/-- chkconfig_flag_state_tuple_t: a (flag, state, origin) record. -/
structure FlagStateTuple where
  m_flag   : CString
  m_state  : Bool
  m_origin : Origin
deriving DecidableEq, Repr

-- MARK: Utility (chkconfig.cpp, Detail namespace)

/-- chkconfigStateStringGetState: parse the leading token of a state
string; strncasecmp against "on" (2 bytes) wins first, then "off"
(3 bytes), anything else is -EINVAL.  The null-pointer guard of the C
function has no counterpart because the model has no null strings. -/
def chkconfigStateStringGetState (s : CString) : Except Int Bool :=
  if strncasecmp s sOnStateString sOnStateString.length = 0 then
    Except.ok true
  else if strncasecmp s sOffStateString sOffStateString.length = 0 then
    Except.ok false
  else
    Except.error (-EINVAL)

/-- chkconfigStateGetStateString: the state string for a boolean. -/
def chkconfigStateGetStateString (s : Bool) : CString :=
  if s then sOnStateString else sOffStateString

/-- chkconfigFlagStateTuplesInit: a zero count is rejected with
-EINVAL before any allocation; a positive count yields a
zero-initialized array (malloc modelled as succeeding, memset 0 gives
a null flag, false state and origin 0 = unknown). -/
def chkconfigFlagStateTuplesInit (count : Nat) :
    Except Int (List FlagStateTuple) :=
  if count > 0 then
    Except.ok (List.replicate count ⟨[], false, Origin.unknown⟩)
  else
    Except.error (-EINVAL)

/-- chkconfigFlagStateTupleFlagSortFunction: strcmp on the flags. -/
def chkconfigFlagStateTupleFlagSortFunction (a b : FlagStateTuple) : Int :=
  strcmp a.m_flag b.m_flag

/-- chkconfigFlagStateTupleStateSortFunction: state descending (true
before false), flag comparison as the secondary key. -/
def chkconfigFlagStateTupleStateSortFunction (a b : FlagStateTuple) : Int :=
  let d : Int := (if b.m_state then 1 else 0) - (if a.m_state then 1 else 0)
  if d = 0 then chkconfigFlagStateTupleFlagSortFunction a b else d

/-- The overloaded operator < on tuples used by std::set_union:
strcmp on the flags is negative. -/
def tupleFlagLtB (a b : FlagStateTuple) : Bool :=
  strcmp a.m_flag b.m_flag < 0

/-- One insertion step of the sort performed by qsort with
chkconfig_flag_state_tuple_flag_compare_function.  qsort is
unspecified up to the order of compare-equal elements; on the
arrays the library sorts (directory snapshots, whose flags are the
distinct filenames) no two elements compare equal, so insertion sort
computes the same array. -/
def insertTuple (a : FlagStateTuple) : List FlagStateTuple → List FlagStateTuple
  | [] => [a]
  | b :: l =>
    if strcmp a.m_flag b.m_flag ≤ 0 then a :: b :: l else b :: insertTuple a l

/-- The qsort call on a tuple array with the flag compare function. -/
def sortTuplesByFlag : List FlagStateTuple → List FlagStateTuple
  | [] => []
  | a :: l => insertTuple a (sortTuplesByFlag l)

/-- std::set_union over two flag-sorted tuple ranges: when neither
element is < the other (equal flags), the element of the left (first)
range is copied and both ranges advance. -/
def setUnionTuples : List FlagStateTuple → List FlagStateTuple → List FlagStateTuple
  | [], r => r
  | a :: l, [] => a :: l
  | a :: l, b :: r =>
    if tupleFlagLtB b a then b :: setUnionTuples (a :: l) r
    else if tupleFlagLtB a b then a :: setUnionTuples l (b :: r)
    else a :: setUnionTuples l r
termination_by l r => l.length + r.length

/-- chkconfigFlagStateTupleCountUnion: run the union with the
counting output iterator and return how many elements it would copy. -/
def chkconfigFlagStateTupleCountUnion (l r : List FlagStateTuple) : Nat :=
  (setUnionTuples l r).length

/-- chkconfigFlagStateTupleCopyUnion (array level): sort both input
arrays in place with qsort, count the union, and when the count is
positive allocate a result array and populate it with the union; a
zero count returns a null array (modelled as Option.none). -/
def chkconfigFlagStateTupleCopyUnion (l r : List FlagStateTuple) :
    Except Int (Option (List FlagStateTuple) × Nat) :=
  let ls := sortTuplesByFlag l
  let rs := sortTuplesByFlag r
  let n := chkconfigFlagStateTupleCountUnion ls rs
  if n > 0 then
    Except.ok (some (setUnionTuples ls rs), n)
  else
    Except.ok (Option.none, 0)

-- MARK: Filesystem model

/-- What open(2) and read find behind a path that exists. -/
inductive FileView
  | inaccessible (errno : Int)
  | content (bytes : List Nat)
deriving DecidableEq, Repr

/-- One directory entry as seen by readdir/stat: a name, whether it
is a regular file, and the file behind it. -/
structure DirEnt where
  name    : CString
  regular : Bool
  file    : FileView
deriving DecidableEq, Repr

/-- A directory snapshot, in readdir order. -/
abbrev Dir := List DirEnt

/-- Path lookup of a flag inside a directory. -/
def dirLookup (d : Dir) (flag : CString) : Option DirEnt :=
  d.find? (fun e => e.name = flag)

/-- The out-parameters of the path-level chkconfigStateGet: writes to
outState and outOrigin are modelled as field updates. -/
structure GetOut where
  state  : Bool
  origin : Origin
deriving DecidableEq, Repr

/-- chkconfigStateGet (path level): open the backing file; on ENOENT
write (false, None) and fail only when inNonexistentIsAnError; on any
other open error fail with the negated errno without touching the out
parameters; otherwise parse the content when non-empty (on a parse
failure outState is forced to false and the origin is left alone) and
report (parsed state, inOrigin) on success.  A zero-size file is the
state false. -/
def chkconfigStateGetPath (inOrigin : Origin) (inNonexistentIsAnError : Bool)
    (file : Option FileView) (out : GetOut) : Int × GetOut :=
  match file with
  | Option.none =>
    ((if inNonexistentIsAnError then -ENOENT else CHKCONFIG_STATUS_SUCCESS),
     { state := false, origin := Origin.none })
  | some (FileView.inaccessible e) => (-e, out)
  | some (FileView.content bytes) =>
    if bytes.length > 0 then
      match chkconfigStateStringGetState bytes with
      | Except.ok s => (CHKCONFIG_STATUS_SUCCESS, { state := s, origin := inOrigin })
      | Except.error r => (r, { out with state := false })
    else
      (CHKCONFIG_STATUS_SUCCESS, { state := false, origin := inOrigin })

-- MARK: Options / context model

/-- The library context together with the filesystem it operates on:
the two directory path options are identified with the snapshots of
the directories they name.  m_default_dir is never null (both the
compiled-in default options and chkconfig_options_set always hold an
allocated string), so chkconfigUseDefaultDirectory reduces to
m_use_default_dir. -/
structure Context where
  stateDir      : Dir
  forceState    : Bool
  useDefaultDir : Bool
  defaultDir    : Dir
deriving DecidableEq, Repr

/-- chkconfigUseDefaultDirectory. -/
def chkconfigUseDefaultDirectory (ctx : Context) : Bool := ctx.useDefaultDir

/-- chkconfigStateGet (context level): compose the state-directory
path (an empty flag fails the chkconfigFlagPathCopy guard with
-EINVAL) and try it with inNonexistentIsAnError equal to
lUseDefaultDirectory; if that attempt failed for ANY reason and the
default directory is in use, retry against the default directory with
inNonexistentIsAnError equal to the negation of lUseDefaultDirectory,
that is, false. -/
def chkconfigStateGet (ctx : Context) (flag : CString) (out : GetOut) :
    Int × GetOut :=
  if flag = [] then (-EINVAL, out)
  else
    let lUseDefaultDirectory := chkconfigUseDefaultDirectory ctx
    let first := chkconfigStateGetPath Origin.state lUseDefaultDirectory
        ((dirLookup ctx.stateDir flag).map (fun e => e.file)) out
    if first.1 < CHKCONFIG_STATUS_SUCCESS ∧ lUseDefaultDirectory = true then
      chkconfigStateGetPath Origin.default (!lUseDefaultDirectory)
        ((dirLookup ctx.defaultDir flag).map (fun e => e.file)) first.2
    else
      first

-- MARK: Enumeration

/-- chkconfigStateGetCount (per directory): walk the entries, fail
with -EINVAL on an empty name (the chkconfigFlagPathCopy guard), and
count the regular files. -/
def chkconfigStateGetCountDir : Dir → Except Int Nat
  | [] => Except.ok 0
  | e :: es =>
    if e.name = [] then Except.error (-EINVAL)
    else
      match chkconfigStateGetCountDir es with
      | Except.error r => Except.error r
      | Except.ok n => Except.ok (if e.regular then n + 1 else n)

/-- chkconfigStateGetAll: walk the entries while capacity (inCount
minus the index already filled) remains; for each regular file read
its state with the path-level get (the file exists, so
inNonexistentIsAnError is passed as false) and record the tuple with
a copy of the entry name.  Any failure aborts the walk. -/
def chkconfigStateGetAll (origin : Origin) :
    Dir → Nat → Except Int (List FlagStateTuple)
  | _, 0 => Except.ok []
  | [], _ + 1 => Except.ok []
  | e :: es, c + 1 =>
    if e.name = [] then Except.error (-EINVAL)
    else if e.regular then
      if (chkconfigStateGetPath origin false (some e.file)
            ⟨false, Origin.unknown⟩).1 < CHKCONFIG_STATUS_SUCCESS then
        Except.error (chkconfigStateGetPath origin false (some e.file)
          ⟨false, Origin.unknown⟩).1
      else
        match chkconfigStateGetAll origin es c with
        | Except.error r => Except.error r
        | Except.ok rest =>
          Except.ok (⟨e.name,
            (chkconfigStateGetPath origin false (some e.file)
              ⟨false, Origin.unknown⟩).2.state,
            (chkconfigStateGetPath origin false (some e.file)
              ⟨false, Origin.unknown⟩).2.origin⟩ :: rest)
    else
      chkconfigStateGetAll origin es (c + 1)
termination_by d _ => d.length

/-- chkconfigStateCopyAll (per directory): count the regular files;
when the count is zero return a null array (Option.none) and zero,
otherwise allocate the tuple array and populate it. -/
def chkconfigStateCopyAllDir (origin : Origin) (d : Dir) :
    Except Int (Option (List FlagStateTuple) × Nat) :=
  match chkconfigStateGetCountDir d with
  | Except.error r => Except.error r
  | Except.ok count =>
    if count > 0 then
      match chkconfigStateGetAll origin d count with
      | Except.error r => Except.error r
      | Except.ok tuples => Except.ok (some tuples, count)
    else
      Except.ok (Option.none, 0)

/-- chkconfigStateCopyAllWithDefaultDirectory: snapshot the default
directory (origin Default), then the state directory (origin State),
then take the union with the state tuples as the left-hand range so
that they win on equal flags. -/
def chkconfigStateCopyAllWithDefaultDirectory (ctx : Context) :
    Except Int (Option (List FlagStateTuple) × Nat) :=
  match chkconfigStateCopyAllDir Origin.default ctx.defaultDir with
  | Except.error r => Except.error r
  | Except.ok dres =>
    match chkconfigStateCopyAllDir Origin.state ctx.stateDir with
    | Except.error r => Except.error r
    | Except.ok sres =>
      chkconfigFlagStateTupleCopyUnion (sres.1.getD []) (dres.1.getD [])

/-- chkconfigStateCopyAll (context level dispatch). -/
def chkconfigStateCopyAll (ctx : Context) :
    Except Int (Option (List FlagStateTuple) × Nat) :=
  if chkconfigUseDefaultDirectory ctx = false then
    chkconfigStateCopyAllDir Origin.state ctx.stateDir
  else
    chkconfigStateCopyAllWithDefaultDirectory ctx

/-- chkconfigStateGetCountWithDefaultDirectory: run the union copy
and keep only the count. -/
def chkconfigStateGetCountWithDefaultDirectory (ctx : Context) :
    Except Int Nat :=
  match chkconfigStateCopyAllWithDefaultDirectory ctx with
  | Except.error r => Except.error r
  | Except.ok res => Except.ok res.2

/-- chkconfigStateGetCount (context level dispatch). -/
def chkconfigStateGetCount (ctx : Context) : Except Int Nat :=
  if chkconfigUseDefaultDirectory ctx = false then
    chkconfigStateGetCountDir ctx.stateDir
  else
    chkconfigStateGetCountWithDefaultDirectory ctx

-- MARK: Mutators

/-- chkconfigStateSet: an empty flag is -EINVAL; open the state
directory path with O_WRONLY|O_TRUNC, adding O_CREAT only under the
force-state option, so a missing file without force fails with
-ENOENT from open and nothing is created; on success the state string
and a newline are written.  The returned directory is the state
directory after the call. -/
def chkconfigStateSet (ctx : Context) (flag : CString) (state : Bool) :
    Int × Dir :=
  if flag = [] then (-EINVAL, ctx.stateDir)
  else
    let newContent : FileView :=
      FileView.content (chkconfigStateGetStateString state ++ [10])
    match dirLookup ctx.stateDir flag with
    | Option.none =>
      if ctx.forceState then
        (CHKCONFIG_STATUS_SUCCESS,
         ctx.stateDir ++ [⟨flag, true, newContent⟩])
      else
        (-ENOENT, ctx.stateDir)
    | some e =>
      match e.file with
      | FileView.inaccessible errno => (-errno, ctx.stateDir)
      | FileView.content _ =>
        (CHKCONFIG_STATUS_SUCCESS,
         ctx.stateDir.map (fun x =>
           if x.name = flag then { x with file := newContent } else x))

-- MARK: Specification-side helper functions

/-- The boolean a parseable backing file denotes: false for a
zero-size file, otherwise the parsed leading token. -/
def FileView.value : FileView → Bool
  | FileView.inaccessible _ => false
  | FileView.content bytes =>
    if bytes.length > 0 then (chkconfigStateStringGetState bytes).toOption.getD false
    else false

/-- Whether the path-level get of this existing file succeeds. -/
def FileView.parses : FileView → Bool
  | FileView.inaccessible _ => false
  | FileView.content bytes =>
    if bytes.length > 0 then (chkconfigStateStringGetState bytes).toOption.isSome
    else true

/-- The per-flag snapshot a directory denotes: one tuple per regular
file, in readdir order, tagged with the given origin. -/
def dirSnapshot (origin : Origin) (d : Dir) : List FlagStateTuple :=
  (d.filter (fun e => e.regular)).map (fun e => ⟨e.name, e.file.value, origin⟩)

/-- The flag names of a tuple list. -/
def flagsOf (l : List FlagStateTuple) : List CString :=
  l.map (fun t => t.m_flag)

/-- The ordering the flag sort and the union merge operate under. -/
def tupleFlagLe (a b : FlagStateTuple) : Prop := strcmp a.m_flag b.m_flag ≤ 0

/-- The strict ordering by flag (the overloaded operator <). -/
def tupleFlagLt (a b : FlagStateTuple) : Prop := strcmp a.m_flag b.m_flag < 0

/-- POSIX open(2) reports failure through a positive errno; the model
permits any integer in FileView.inaccessible, so well-formed
directories constrain it. -/
def fileErrnoOK : FileView → Prop
  | FileView.inaccessible e => 0 < e
  | FileView.content _ => True

/-- A well-formed directory snapshot: every entry has a non-empty
name (real dirents do), the names are distinct (filenames are), and
failed opens carry a positive errno. -/
def dirWF (d : Dir) : Prop :=
  (∀ e ∈ d, e.name ≠ []) ∧ (d.map (fun e => e.name)).Nodup ∧
    ∀ e ∈ d, fileErrnoOK e.file

/-- A directory all of whose regular files can be read and parsed. -/
def dirGood (d : Dir) : Prop :=
  dirWF d ∧ ∀ e ∈ d, e.regular = true → e.file.parses = true

instance : (v : FileView) → Decidable (fileErrnoOK v)
  | FileView.inaccessible _ => by unfold fileErrnoOK; infer_instance
  | FileView.content _ => by unfold fileErrnoOK; infer_instance

instance (d : Dir) : Decidable (dirWF d) := by
  unfold dirWF; infer_instance

instance (d : Dir) : Decidable (dirGood d) := by
  unfold dirGood; infer_instance

-- MARK: Concrete inputs for witnesses and counterexamples

/-- The flag name a. -/
def exA : CString := [97]

/-- The flag name b. -/
def exB : CString := [98]

/-- The spec scenario state directory: a is off ("off" newline). -/
def exStateDir : Dir := [⟨exA, true, FileView.content [111, 102, 102, 10]⟩]

/-- The spec scenario default directory: a and b are on. -/
def exDefaultDir : Dir :=
  [⟨exA, true, FileView.content [111, 110, 10]⟩,
   ⟨exB, true, FileView.content [111, 110, 10]⟩]

/-- The flag name x. -/
def exX : CString := [120]

/-- A state directory whose file for x is malformed ("bogus"). -/
def malformedStateDir : Dir :=
  [⟨exX, true, FileView.content [98, 111, 103, 117, 115]⟩]

/-- A default directory whose file for x is on. -/
def onDefaultDir : Dir := [⟨exX, true, FileView.content [111, 110, 10]⟩]

end Chkconfig

namespace Chkconfig

-- MARK: Lemmas about strcmp

theorem strcmp_cons_lt (x y : Nat) (as bs : CString) :
    strcmp (x :: as) (y :: bs) < 0 ↔ x < y ∨ (x = y ∧ strcmp as bs < 0) := by
  simp only [strcmp]
  rcases Nat.lt_trichotomy x y with h | h | h
  · rw [if_pos h]
    constructor
    · intro _; exact Or.inl h
    · intro _; decide
  · subst h
    rw [if_neg (by omega), if_neg (by omega)]
    constructor
    · intro hs; exact Or.inr ⟨rfl, hs⟩
    · intro hs
      rcases hs with h | ⟨_, h⟩
      · omega
      · exact h
  · rw [if_neg (by omega), if_pos h]
    constructor
    · intro hc; omega
    · intro hc
      rcases hc with h' | ⟨h', _⟩ <;> omega

theorem strcmp_eq_zero_iff : ∀ (a b : CString), strcmp a b = 0 ↔ a = b
  | [], [] => by simp [strcmp]
  | [], _ :: _ => by simp [strcmp]
  | _ :: _, [] => by simp [strcmp]
  | a :: as, b :: bs => by
    have ih := strcmp_eq_zero_iff as bs
    simp only [strcmp]
    rcases Nat.lt_trichotomy a b with h | h | h
    · rw [if_pos h]
      constructor
      · intro hc; omega
      · intro hc
        simp only [List.cons.injEq] at hc
        omega
    · subst h
      rw [if_neg (by omega), if_neg (by omega), ih]
      simp
    · rw [if_neg (by omega), if_pos h]
      constructor
      · intro hc; omega
      · intro hc
        simp only [List.cons.injEq] at hc
        omega

theorem strcmp_neg : ∀ (a b : CString), strcmp b a = -strcmp a b
  | [], [] => by simp [strcmp]
  | [], _ :: _ => by simp [strcmp]
  | _ :: _, [] => by simp [strcmp]
  | a :: as, b :: bs => by
    have ih := strcmp_neg as bs
    simp only [strcmp]
    rcases Nat.lt_trichotomy a b with h | h | h
    · rw [if_neg (by omega), if_pos h, if_pos h]
      decide
    · subst h
      rw [if_neg (by omega), if_neg (by omega), if_neg (by omega),
        if_neg (by omega)]
      exact ih
    · rw [if_pos h, if_neg (by omega), if_pos h]

theorem strcmp_lt_trans :
    ∀ (a b c : CString), strcmp a b < 0 → strcmp b c < 0 → strcmp a c < 0
  | [], b, c => by
    intro h1 h2
    cases b with
    | nil => simp [strcmp] at h1
    | cons y bs =>
      cases c with
      | nil => simp [strcmp] at h2
      | cons z cs => simp [strcmp]
  | _ :: _, [], _ => by
    intro h1 _
    simp [strcmp] at h1
  | _ :: _, _ :: _, [] => by
    intro _ h2
    simp [strcmp] at h2
  | x :: as, y :: bs, z :: cs => by
    intro h1 h2
    have ih := strcmp_lt_trans as bs cs
    rw [strcmp_cons_lt] at h1 h2 ⊢
    rcases h1 with h1 | ⟨rfl, h1⟩ <;> rcases h2 with h2 | ⟨rfl, h2⟩
    · exact Or.inl (Nat.lt_trans h1 h2)
    · exact Or.inl h1
    · exact Or.inl h2
    · exact Or.inr ⟨rfl, ih h1 h2⟩

theorem strcmp_le_iff (a b : CString) : strcmp a b ≤ 0 ↔ strcmp a b < 0 ∨ a = b := by
  rw [← strcmp_eq_zero_iff]
  omega

theorem strcmp_le_trans (a b c : CString)
    (h1 : strcmp a b ≤ 0) (h2 : strcmp b c ≤ 0) : strcmp a c ≤ 0 := by
  rw [strcmp_le_iff] at h1 h2 ⊢
  rcases h1 with h1 | rfl <;> rcases h2 with h2 | rfl
  · exact Or.inl (strcmp_lt_trans _ _ _ h1 h2)
  · exact Or.inl h1
  · exact Or.inl h2
  · exact Or.inr rfl

-- MARK: Lemmas about the tuple orderings

theorem tupleFlagLtB_iff (a b : FlagStateTuple) :
    tupleFlagLtB a b = true ↔ tupleFlagLt a b := by
  simp [tupleFlagLtB, tupleFlagLt]

theorem tupleFlagLt_trans {a b c : FlagStateTuple}
    (h1 : tupleFlagLt a b) (h2 : tupleFlagLt b c) : tupleFlagLt a c :=
  strcmp_lt_trans _ _ _ h1 h2

theorem tupleFlagLe_trans {a b c : FlagStateTuple}
    (h1 : tupleFlagLe a b) (h2 : tupleFlagLe b c) : tupleFlagLe a c :=
  strcmp_le_trans _ _ _ h1 h2

theorem tupleFlagLe_of_not_le {a b : FlagStateTuple}
    (h : ¬ tupleFlagLe a b) : tupleFlagLe b a := by
  unfold tupleFlagLe at h ⊢
  rw [strcmp_neg]
  omega

theorem flag_ne_of_lt {a b : FlagStateTuple}
    (h : tupleFlagLt a b) : a.m_flag ≠ b.m_flag := by
  intro hc
  unfold tupleFlagLt at h
  rw [← strcmp_eq_zero_iff] at hc
  omega

theorem flag_eq_of_not_ltB {a b : FlagStateTuple}
    (h1 : ¬ tupleFlagLtB b a = true) (h2 : ¬ tupleFlagLtB a b = true) :
    a.m_flag = b.m_flag := by
  simp only [tupleFlagLtB, decide_eq_true_eq, not_lt] at h1 h2
  rw [strcmp_neg] at h1
  rw [← strcmp_eq_zero_iff]
  omega

theorem tupleFlagLt_of_lt_of_le {a b c : FlagStateTuple}
    (h1 : tupleFlagLt a b) (h2 : tupleFlagLe b c) : tupleFlagLt a c := by
  rcases (strcmp_le_iff _ _).mp h2 with h2 | h2
  · exact tupleFlagLt_trans h1 h2
  · unfold tupleFlagLt at h1 ⊢
    rw [← h2]
    exact h1

-- MARK: Lemmas about the flag sort

theorem mem_insertTuple {x a : FlagStateTuple} {l : List FlagStateTuple} :
    x ∈ insertTuple a l ↔ x = a ∨ x ∈ l := by
  induction l with
  | nil => simp [insertTuple]
  | cons b l ih =>
    simp only [insertTuple]
    split
    · simp [List.mem_cons]
    · simp only [List.mem_cons, ih]
      tauto

theorem perm_insertTuple (a : FlagStateTuple) (l : List FlagStateTuple) :
    List.Perm (insertTuple a l) (a :: l) := by
  induction l with
  | nil => exact List.Perm.refl _
  | cons b l ih =>
    simp only [insertTuple]
    split
    · exact List.Perm.refl _
    · exact (ih.cons b).trans (List.Perm.swap a b l)

theorem perm_sortTuplesByFlag (l : List FlagStateTuple) :
    List.Perm (sortTuplesByFlag l) l := by
  induction l with
  | nil => exact List.Perm.refl _
  | cons a l ih => exact (perm_insertTuple a _).trans (ih.cons a)

theorem pairwise_le_insertTuple {a : FlagStateTuple} {l : List FlagStateTuple}
    (h : l.Pairwise tupleFlagLe) : (insertTuple a l).Pairwise tupleFlagLe := by
  induction l with
  | nil => simp [insertTuple]
  | cons b l ih =>
    rcases List.pairwise_cons.mp h with ⟨hb, hl⟩
    simp only [insertTuple]
    split
    · rename_i hab
      refine List.pairwise_cons.mpr ⟨?_, h⟩
      intro x hx
      rcases List.mem_cons.mp hx with rfl | hx
      · exact hab
      · exact tupleFlagLe_trans hab (hb x hx)
    · rename_i hab
      refine List.pairwise_cons.mpr ⟨?_, ih hl⟩
      intro x hx
      rcases mem_insertTuple.mp hx with rfl | hx
      · exact tupleFlagLe_of_not_le hab
      · exact hb x hx

theorem sorted_sortTuplesByFlag (l : List FlagStateTuple) :
    (sortTuplesByFlag l).Pairwise tupleFlagLe := by
  induction l with
  | nil => simp [sortTuplesByFlag]
  | cons a l ih => exact pairwise_le_insertTuple ih

theorem pairwise_lt_of_le_of_nodup {l : List FlagStateTuple}
    (h1 : l.Pairwise tupleFlagLe) (h2 : (flagsOf l).Nodup) :
    l.Pairwise tupleFlagLt := by
  have h3 : l.Pairwise (fun a b => a.m_flag ≠ b.m_flag) := by
    have := h2
    unfold flagsOf at this
    rw [List.Nodup, List.pairwise_map] at this
    exact this
  have h4 := h1.and h3
  refine h4.imp ?_
  intro a b hab
  rcases (strcmp_le_iff _ _).mp hab.1 with h | h
  · exact h
  · exact absurd h hab.2

theorem flagsOf_nodup_of_perm {l l' : List FlagStateTuple}
    (h : List.Perm l l') (hn : (flagsOf l).Nodup) : (flagsOf l').Nodup := by
  unfold flagsOf at hn ⊢
  exact (h.map (fun t => t.m_flag)).nodup_iff.mp hn

theorem sorted_lt_sortTuplesByFlag {l : List FlagStateTuple}
    (hn : (flagsOf l).Nodup) : (sortTuplesByFlag l).Pairwise tupleFlagLt :=
  pairwise_lt_of_le_of_nodup (sorted_sortTuplesByFlag l)
    (flagsOf_nodup_of_perm (perm_sortTuplesByFlag l).symm hn)

-- MARK: Lemmas about the set union merge

theorem setUnionTuples_nil (r : List FlagStateTuple) :
    setUnionTuples [] r = r := by
  simp [setUnionTuples]

theorem setUnionTuples_nil_right (a : FlagStateTuple) (l : List FlagStateTuple) :
    setUnionTuples (a :: l) [] = a :: l := by
  simp [setUnionTuples]

theorem setUnionTuples_cons_cons (a : FlagStateTuple) (l : List FlagStateTuple)
    (b : FlagStateTuple) (r : List FlagStateTuple) :
    setUnionTuples (a :: l) (b :: r) =
      if tupleFlagLtB b a then b :: setUnionTuples (a :: l) r
      else if tupleFlagLtB a b then a :: setUnionTuples l (b :: r)
      else a :: setUnionTuples l r := by
  simp [setUnionTuples]

theorem mem_setUnionTuples :
    ∀ (l r : List FlagStateTuple) (x : FlagStateTuple),
      x ∈ setUnionTuples l r → x ∈ l ∨ x ∈ r := by
  intro l r
  induction l, r using setUnionTuples.induct with
  | case1 r =>
    intro x h
    rw [setUnionTuples_nil] at h
    exact Or.inr h
  | case2 a l =>
    intro x h
    rw [setUnionTuples_nil_right] at h
    exact Or.inl h
  | case3 a l b r hba ih =>
    intro x h
    rw [setUnionTuples_cons_cons, if_pos hba] at h
    rcases List.mem_cons.mp h with rfl | h
    · exact Or.inr (List.mem_cons_self _ _)
    · rcases ih x h with h | h
      · exact Or.inl h
      · exact Or.inr (List.mem_cons_of_mem _ h)
  | case4 a l b r hba hab ih =>
    intro x h
    rw [setUnionTuples_cons_cons, if_neg hba, if_pos hab] at h
    rcases List.mem_cons.mp h with rfl | h
    · exact Or.inl (List.mem_cons_self _ _)
    · rcases ih x h with h | h
      · exact Or.inl (List.mem_cons_of_mem _ h)
      · exact Or.inr h
  | case5 a l b r hba hab ih =>
    intro x h
    rw [setUnionTuples_cons_cons, if_neg hba, if_neg hab] at h
    rcases List.mem_cons.mp h with rfl | h
    · exact Or.inl (List.mem_cons_self _ _)
    · rcases ih x h with h | h
      · exact Or.inl (List.mem_cons_of_mem _ h)
      · exact Or.inr (List.mem_cons_of_mem _ h)

theorem pairwise_lt_setUnionTuples :
    ∀ (l r : List FlagStateTuple), l.Pairwise tupleFlagLt →
      r.Pairwise tupleFlagLt → (setUnionTuples l r).Pairwise tupleFlagLt := by
  intro l r
  induction l, r using setUnionTuples.induct with
  | case1 r =>
    intro _ hr
    rw [setUnionTuples_nil]
    exact hr
  | case2 a l =>
    intro hl _
    rw [setUnionTuples_nil_right]
    exact hl
  | case3 a l b r hba ih =>
    intro hl hr
    rcases List.pairwise_cons.mp hr with ⟨hb, hr'⟩
    rw [setUnionTuples_cons_cons, if_pos hba]
    refine List.pairwise_cons.mpr ⟨?_, ih hl hr'⟩
    intro x hx
    have hblt : tupleFlagLt b a := (tupleFlagLtB_iff _ _).mp hba
    rcases mem_setUnionTuples _ _ x hx with hx | hx
    · rcases List.mem_cons.mp hx with rfl | hx
      · exact hblt
      · exact tupleFlagLt_trans hblt ((List.pairwise_cons.mp hl).1 x hx)
    · exact hb x hx
  | case4 a l b r hba hab ih =>
    intro hl hr
    rcases List.pairwise_cons.mp hl with ⟨ha, hl'⟩
    rw [setUnionTuples_cons_cons, if_neg hba, if_pos hab]
    refine List.pairwise_cons.mpr ⟨?_, ih hl' hr⟩
    intro x hx
    have habt : tupleFlagLt a b := (tupleFlagLtB_iff _ _).mp hab
    rcases mem_setUnionTuples _ _ x hx with hx | hx
    · exact ha x hx
    · rcases List.mem_cons.mp hx with rfl | hx
      · exact habt
      · exact tupleFlagLt_trans habt ((List.pairwise_cons.mp hr).1 x hx)
  | case5 a l b r hba hab ih =>
    intro hl hr
    rcases List.pairwise_cons.mp hl with ⟨ha, hl'⟩
    rcases List.pairwise_cons.mp hr with ⟨hb, hr'⟩
    rw [setUnionTuples_cons_cons, if_neg hba, if_neg hab]
    refine List.pairwise_cons.mpr ⟨?_, ih hl' hr'⟩
    intro x hx
    have heq : a.m_flag = b.m_flag := flag_eq_of_not_ltB hba hab
    rcases mem_setUnionTuples _ _ x hx with hx | hx
    · exact ha x hx
    · have hbx := hb x hx
      unfold tupleFlagLt at hbx ⊢
      rw [heq]
      exact hbx

theorem flagsOf_cons (a : FlagStateTuple) (l : List FlagStateTuple) :
    flagsOf (a :: l) = a.m_flag :: flagsOf l := rfl

theorem flag_notin_of_lt_all {b : FlagStateTuple} {l : List FlagStateTuple}
    (h : ∀ y ∈ l, tupleFlagLt b y) : b.m_flag ∉ flagsOf l := by
  intro hc
  unfold flagsOf at hc
  rcases List.mem_map.mp hc with ⟨y, hy, hyy⟩
  exact flag_ne_of_lt (h y hy) hyy.symm

theorem mem_setUnionTuples_iff :
    ∀ (l r : List FlagStateTuple), l.Pairwise tupleFlagLt →
      r.Pairwise tupleFlagLt → ∀ x : FlagStateTuple,
      (x ∈ setUnionTuples l r ↔ x ∈ l ∨ (x ∈ r ∧ x.m_flag ∉ flagsOf l)) := by
  intro l r
  induction l, r using setUnionTuples.induct with
  | case1 r =>
    intro _ _ x
    rw [setUnionTuples_nil]
    simp [flagsOf]
  | case2 a l =>
    intro _ _ x
    rw [setUnionTuples_nil_right]
    simp
  | case3 a l b r hba ih =>
    intro hl hr x
    rcases List.pairwise_cons.mp hr with ⟨hbr, hr'⟩
    have hblt := (tupleFlagLtB_iff _ _).mp hba
    have key : b.m_flag ∉ flagsOf (a :: l) := by
      refine flag_notin_of_lt_all ?_
      intro y hy
      rcases List.mem_cons.mp hy with rfl | hy
      · exact hblt
      · exact tupleFlagLt_trans hblt ((List.pairwise_cons.mp hl).1 y hy)
    rw [setUnionTuples_cons_cons, if_pos hba]
    constructor
    · intro hx
      rcases List.mem_cons.mp hx with rfl | hx
      · exact Or.inr ⟨List.mem_cons_self _ _, key⟩
      · rcases (ih hl hr' x).mp hx with h | ⟨h1, h2⟩
        · exact Or.inl h
        · exact Or.inr ⟨List.mem_cons_of_mem _ h1, h2⟩
    · intro hx
      rcases hx with h | ⟨h1, h2⟩
      · exact List.mem_cons_of_mem _ ((ih hl hr' x).mpr (Or.inl h))
      · rcases List.mem_cons.mp h1 with rfl | h1
        · exact List.mem_cons_self _ _
        · exact List.mem_cons_of_mem _ ((ih hl hr' x).mpr (Or.inr ⟨h1, h2⟩))
  | case4 a l b r hba hab ih =>
    intro hl hr x
    rcases List.pairwise_cons.mp hl with ⟨hal, hl'⟩
    have habt := (tupleFlagLtB_iff _ _).mp hab
    rw [setUnionTuples_cons_cons, if_neg hba, if_pos hab]
    constructor
    · intro hx
      rcases List.mem_cons.mp hx with rfl | hx
      · exact Or.inl (List.mem_cons_self _ _)
      · rcases (ih hl' hr x).mp hx with h | ⟨h1, h2⟩
        · exact Or.inl (List.mem_cons_of_mem _ h)
        · refine Or.inr ⟨h1, ?_⟩
          rw [flagsOf_cons]
          intro hc
          rcases List.mem_cons.mp hc with hc | hc
          · rcases List.mem_cons.mp h1 with rfl | h1
            · exact flag_ne_of_lt habt hc.symm
            · exact flag_ne_of_lt
                (tupleFlagLt_trans habt ((List.pairwise_cons.mp hr).1 x h1))
                hc.symm
          · exact h2 hc
    · intro hx
      rcases hx with h | ⟨h1, h2⟩
      · rcases List.mem_cons.mp h with rfl | h
        · exact List.mem_cons_self _ _
        · exact List.mem_cons_of_mem _ ((ih hl' hr x).mpr (Or.inl h))
      · rw [flagsOf_cons] at h2
        refine List.mem_cons_of_mem _ ((ih hl' hr x).mpr (Or.inr ⟨h1, ?_⟩))
        intro hc
        exact h2 (List.mem_cons_of_mem _ hc)
  | case5 a l b r hba hab ih =>
    intro hl hr x
    rcases List.pairwise_cons.mp hl with ⟨hal, hl'⟩
    rcases List.pairwise_cons.mp hr with ⟨hbr, hr'⟩
    have heq : a.m_flag = b.m_flag := flag_eq_of_not_ltB hba hab
    rw [setUnionTuples_cons_cons, if_neg hba, if_neg hab]
    constructor
    · intro hx
      rcases List.mem_cons.mp hx with rfl | hx
      · exact Or.inl (List.mem_cons_self _ _)
      · rcases (ih hl' hr' x).mp hx with h | ⟨h1, h2⟩
        · exact Or.inl (List.mem_cons_of_mem _ h)
        · refine Or.inr ⟨List.mem_cons_of_mem _ h1, ?_⟩
          rw [flagsOf_cons]
          intro hc
          rcases List.mem_cons.mp hc with hc | hc
          · refine flag_ne_of_lt (hbr x h1) ?_
            rw [← heq]
            exact hc.symm
          · exact h2 hc
    · intro hx
      rcases hx with h | ⟨h1, h2⟩
      · rcases List.mem_cons.mp h with rfl | h
        · exact List.mem_cons_self _ _
        · exact List.mem_cons_of_mem _ ((ih hl' hr' x).mpr (Or.inl h))
      · rcases List.mem_cons.mp h1 with rfl | h1
        · exfalso
          refine h2 ?_
          rw [flagsOf_cons, ← heq]
          exact List.mem_cons_self _ _
        · rw [flagsOf_cons] at h2
          refine List.mem_cons_of_mem _ ((ih hl' hr' x).mpr (Or.inr ⟨h1, ?_⟩))
          intro hc
          exact h2 (List.mem_cons_of_mem _ hc)

end Chkconfig

namespace Chkconfig

-- MARK: Lemmas about the enumeration pipeline

theorem pathGet_of_parses {v : FileView} (h : v.parses = true)
    (origin : Origin) (err : Bool) (z : GetOut) :
    chkconfigStateGetPath origin err (some v) z =
      (CHKCONFIG_STATUS_SUCCESS, ⟨v.value, origin⟩) := by
  cases v with
  | inaccessible e => simp [FileView.parses] at h
  | content bytes =>
    simp only [FileView.parses] at h
    simp only [chkconfigStateGetPath, FileView.value]
    by_cases hb : bytes.length > 0
    · rw [if_pos hb] at h
      rw [if_pos hb, if_pos hb]
      cases hp : chkconfigStateStringGetState bytes with
      | ok s => simp [hp, Except.toOption]
      | error r =>
        rw [hp] at h
        simp [Except.toOption] at h
    · rw [if_neg hb, if_neg hb]

theorem parse_error_eq {bytes : List Nat} {r : Int}
    (h : chkconfigStateStringGetState bytes = Except.error r) : r = -EINVAL := by
  unfold chkconfigStateStringGetState at h
  split at h
  · exact Except.noConfusion h
  · split at h
    · exact Except.noConfusion h
    · simpa using h.symm

theorem pathGet_fail_of_not_parses {v : FileView} (hok : fileErrnoOK v)
    (h : v.parses = false) (origin : Origin) (err : Bool) (z : GetOut) :
    (chkconfigStateGetPath origin err (some v) z).1 <
      CHKCONFIG_STATUS_SUCCESS := by
  cases v with
  | inaccessible e =>
    unfold fileErrnoOK at hok
    simp only [chkconfigStateGetPath, CHKCONFIG_STATUS_SUCCESS]
    omega
  | content bytes =>
    simp only [FileView.parses] at h
    simp only [chkconfigStateGetPath]
    by_cases hb : bytes.length > 0
    · rw [if_pos hb] at h
      rw [if_pos hb]
      cases hp : chkconfigStateStringGetState bytes with
      | ok s =>
        rw [hp] at h
        simp [Except.toOption] at h
      | error r =>
        have := parse_error_eq hp
        simp only [CHKCONFIG_STATUS_SUCCESS, EINVAL] at this ⊢
        omega
    · rw [if_neg hb] at h
      exact absurd h (by simp)

theorem getCountDir_ok {d : Dir} (h : ∀ e ∈ d, e.name ≠ []) :
    chkconfigStateGetCountDir d =
      Except.ok (d.filter (fun e => e.regular)).length := by
  induction d with
  | nil => rfl
  | cons e es ih =>
    simp only [chkconfigStateGetCountDir]
    rw [if_neg (h e (List.mem_cons_self _ _)),
      ih (fun x hx => h x (List.mem_cons_of_mem _ hx))]
    by_cases hr : e.regular <;> simp [List.filter_cons, hr]

theorem getCountDir_inv {d : Dir} {n : Nat}
    (h : chkconfigStateGetCountDir d = Except.ok n) :
    n = (d.filter (fun e => e.regular)).length := by
  induction d generalizing n with
  | nil =>
    simp only [chkconfigStateGetCountDir, Except.ok.injEq] at h
    simp [← h]
  | cons e es ih =>
    simp only [chkconfigStateGetCountDir] at h
    by_cases he : e.name = []
    · rw [if_pos he] at h
      exact Except.noConfusion h
    · rw [if_neg he] at h
      cases hc : chkconfigStateGetCountDir es with
      | error r =>
        rw [hc] at h
        exact Except.noConfusion h
      | ok m =>
        rw [hc] at h
        simp only [Except.ok.injEq] at h
        by_cases hr : e.regular <;>
          simp [List.filter_cons, hr, ← h, ih hc]

theorem getAll_ok {origin : Origin} {d : Dir}
    (hname : ∀ e ∈ d, e.name ≠ [])
    (hgood : ∀ e ∈ d, e.regular = true → e.file.parses = true) :
    ∀ c : Nat, (d.filter (fun e => e.regular)).length ≤ c →
      chkconfigStateGetAll origin d c = Except.ok (dirSnapshot origin d) := by
  induction d with
  | nil =>
    intro c _
    cases c <;> simp [chkconfigStateGetAll, dirSnapshot]
  | cons e es ih =>
    intro c hc
    have hname' := fun x hx => hname x (List.mem_cons_of_mem e hx)
    have hgood' := fun x hx => hgood x (List.mem_cons_of_mem e hx)
    by_cases hr : e.regular
    · rw [List.filter_cons, if_pos (by simp [hr])] at hc
      simp only [List.length_cons] at hc
      cases c with
      | zero => omega
      | succ c' =>
        simp only [chkconfigStateGetAll]
        rw [if_neg (hname e (List.mem_cons_self _ _)), if_pos hr]
        rw [pathGet_of_parses (hgood e (List.mem_cons_self _ _) hr)]
        rw [ih hname' hgood' c' (by omega)]
        simp [CHKCONFIG_STATUS_SUCCESS, dirSnapshot, List.filter_cons, hr]
    · rw [List.filter_cons, if_neg (by simp [hr])] at hc
      cases c with
      | zero =>
        rw [Nat.le_zero, List.length_eq_zero] at hc
        simp [chkconfigStateGetAll, dirSnapshot, List.filter_cons, hr, hc]
      | succ c' =>
        simp only [chkconfigStateGetAll]
        rw [if_neg (hname e (List.mem_cons_self _ _)), if_neg (by simp [hr])]
        rw [ih hname' hgood' (c' + 1) hc]
        simp [dirSnapshot, List.filter_cons, hr]

theorem getAll_inv {origin : Origin} {d : Dir} :
    ∀ {c : Nat} {l : List FlagStateTuple},
      chkconfigStateGetAll origin d c = Except.ok l →
      (∀ e ∈ d, fileErrnoOK e.file) →
      (d.filter (fun e => e.regular)).length ≤ c →
      l = dirSnapshot origin d := by
  induction d with
  | nil =>
    intro c l h _ _
    cases c with
    | zero =>
      simp only [chkconfigStateGetAll, Except.ok.injEq] at h
      simp [← h, dirSnapshot]
    | succ c' =>
      simp only [chkconfigStateGetAll, Except.ok.injEq] at h
      simp [← h, dirSnapshot]
  | cons e es ih =>
    intro c l h herr hc
    have herr' := fun x hx => herr x (List.mem_cons_of_mem e hx)
    by_cases hr : e.regular
    · rw [List.filter_cons, if_pos (by simp [hr])] at hc
      simp only [List.length_cons] at hc
      cases c with
      | zero => omega
      | succ c' =>
        simp only [chkconfigStateGetAll] at h
        by_cases he : e.name = []
        · rw [if_pos he] at h
          exact Except.noConfusion h
        · rw [if_neg he, if_pos hr] at h
          cases hp : e.file.parses with
          | false =>
            rw [if_pos (pathGet_fail_of_not_parses
              (herr e (List.mem_cons_self _ _)) hp origin false
              ⟨false, Origin.unknown⟩)] at h
            exact Except.noConfusion h
          | true =>
            rw [pathGet_of_parses hp] at h
            rw [if_neg (by simp [CHKCONFIG_STATUS_SUCCESS])] at h
            cases hrest : chkconfigStateGetAll origin es c' with
            | error r =>
              rw [hrest] at h
              exact Except.noConfusion h
            | ok rest =>
              rw [hrest] at h
              simp only [Except.ok.injEq] at h
              rw [← h, ih hrest herr' (by omega)]
              simp [dirSnapshot, List.filter_cons, hr]
    · rw [List.filter_cons, if_neg (by simp [hr])] at hc
      cases c with
      | zero =>
        rw [Nat.le_zero, List.length_eq_zero] at hc
        simp only [chkconfigStateGetAll, Except.ok.injEq] at h
        simp [← h, dirSnapshot, List.filter_cons, hr, hc]
      | succ c' =>
        simp only [chkconfigStateGetAll] at h
        by_cases he : e.name = []
        · rw [if_pos he] at h
          exact Except.noConfusion h
        · rw [if_neg he, if_neg (by simp [hr])] at h
          rw [ih h herr' hc]
          simp [dirSnapshot, List.filter_cons, hr]

end Chkconfig

namespace Chkconfig

-- MARK: Lemmas about the snapshot and the union copy

theorem dirSnapshot_length (origin : Origin) (d : Dir) :
    (dirSnapshot origin d).length = (d.filter (fun e => e.regular)).length := by
  simp [dirSnapshot]

theorem flagsOf_dirSnapshot (origin : Origin) (d : Dir) :
    flagsOf (dirSnapshot origin d) =
      (d.filter (fun e => e.regular)).map (fun e => e.name) := by
  simp [flagsOf, dirSnapshot, List.map_map, Function.comp]

theorem snapshot_flags_nodup {d : Dir} (h : dirWF d) (origin : Origin) :
    (flagsOf (dirSnapshot origin d)).Nodup := by
  rw [flagsOf_dirSnapshot]
  have hsub : List.Sublist ((d.filter (fun e => e.regular)).map
      (fun e => e.name)) (d.map (fun e => e.name)) :=
    (List.filter_sublist d).map _
  exact h.2.1.sublist hsub

theorem copyAllDir_eq {origin : Origin} {d : Dir} (h : dirGood d) :
    chkconfigStateCopyAllDir origin d =
      Except.ok
        (if 0 < (d.filter (fun e => e.regular)).length
         then some (dirSnapshot origin d) else Option.none,
         (d.filter (fun e => e.regular)).length) := by
  simp only [chkconfigStateCopyAllDir, getCountDir_ok h.1.1]
  by_cases hz : 0 < (d.filter (fun e => e.regular)).length
  · rw [if_pos hz, if_pos hz,
      getAll_ok h.1.1 h.2 (d.filter (fun e => e.regular)).length (le_refl _)]
  · rw [if_neg hz, if_neg hz]
    have h0 : (d.filter (fun e => e.regular)).length = 0 := by omega
    rw [h0]

theorem copyAllDir_inv {origin : Origin} {d : Dir}
    {t : Option (List FlagStateTuple)} {n : Nat}
    (h : chkconfigStateCopyAllDir origin d = Except.ok (t, n))
    (herr : ∀ e ∈ d, fileErrnoOK e.file) :
    t.getD [] = dirSnapshot origin d ∧
      n = (d.filter (fun e => e.regular)).length := by
  unfold chkconfigStateCopyAllDir at h
  split at h
  · exact Except.noConfusion h
  · rename_i m hc
    have hm := getCountDir_inv hc
    split at h
    · rename_i hz
      split at h
      · exact Except.noConfusion h
      · rename_i l ha
        simp only [Except.ok.injEq, Prod.mk.injEq] at h
        have hl := getAll_inv ha herr (by omega)
        rw [← h.1, ← h.2, hl, hm]
        simp
    · rename_i hz
      simp only [Except.ok.injEq, Prod.mk.injEq] at h
      have h0 : (d.filter (fun e => e.regular)).length = 0 := by omega
      have hfe : d.filter (fun e => e.regular) = [] :=
        List.length_eq_zero.mp h0
      rw [← h.1, ← h.2, h0]
      simp [dirSnapshot, hfe]

theorem copyUnion_eq (l r : List FlagStateTuple) :
    chkconfigFlagStateTupleCopyUnion l r =
      Except.ok
        (if 0 < (setUnionTuples (sortTuplesByFlag l) (sortTuplesByFlag r)).length
         then some (setUnionTuples (sortTuplesByFlag l) (sortTuplesByFlag r))
         else Option.none,
         (setUnionTuples (sortTuplesByFlag l) (sortTuplesByFlag r)).length) := by
  simp only [chkconfigFlagStateTupleCopyUnion, chkconfigFlagStateTupleCountUnion]
  by_cases hz :
      0 < (setUnionTuples (sortTuplesByFlag l) (sortTuplesByFlag r)).length
  · rw [if_pos hz, if_pos hz]
  · rw [if_neg hz, if_neg hz]
    have h0 :
        (setUnionTuples (sortTuplesByFlag l) (sortTuplesByFlag r)).length = 0 :=
      by omega
    rw [h0]

theorem optGetD_if (L : Nat) (snap : List FlagStateTuple)
    (h : snap.length = L) :
    ((if 0 < L then some snap else Option.none).getD []) = snap := by
  by_cases hz : 0 < L
  · rw [if_pos hz]
    rfl
  · rw [if_neg hz]
    have : snap = [] := List.length_eq_zero.mp (by omega)
    simp [this]

theorem copyAllWithDefault_eq {ctx : Context}
    (hs : dirGood ctx.stateDir) (hd : dirGood ctx.defaultDir) :
    chkconfigStateCopyAllWithDefaultDirectory ctx =
      chkconfigFlagStateTupleCopyUnion
        (dirSnapshot Origin.state ctx.stateDir)
        (dirSnapshot Origin.default ctx.defaultDir) := by
  simp only [chkconfigStateCopyAllWithDefaultDirectory,
    copyAllDir_eq hd, copyAllDir_eq hs]
  rw [optGetD_if _ _ (dirSnapshot_length Origin.state ctx.stateDir),
    optGetD_if _ _ (dirSnapshot_length Origin.default ctx.defaultDir)]

theorem union_of_snapshots_mem {s d : List FlagStateTuple}
    (hs : (flagsOf s).Nodup) (hd : (flagsOf d).Nodup) (x : FlagStateTuple) :
    x ∈ setUnionTuples (sortTuplesByFlag s) (sortTuplesByFlag d) ↔
      x ∈ s ∨ (x ∈ d ∧ x.m_flag ∉ flagsOf s) := by
  rw [mem_setUnionTuples_iff _ _ (sorted_lt_sortTuplesByFlag hs)
    (sorted_lt_sortTuplesByFlag hd)]
  rw [(perm_sortTuplesByFlag s).mem_iff, (perm_sortTuplesByFlag d).mem_iff]
  unfold flagsOf
  rw [((perm_sortTuplesByFlag s).map (fun t => t.m_flag)).mem_iff]

theorem union_of_snapshots_sorted {s d : List FlagStateTuple}
    (hs : (flagsOf s).Nodup) (hd : (flagsOf d).Nodup) :
    (setUnionTuples (sortTuplesByFlag s) (sortTuplesByFlag d)).Pairwise
      tupleFlagLt :=
  pairwise_lt_setUnionTuples _ _ (sorted_lt_sortTuplesByFlag hs)
    (sorted_lt_sortTuplesByFlag hd)

end Chkconfig

namespace Chkconfig

-- MARK: Lemmas about the resolver and the mutator

theorem stateGet_both_missing (ctx : Context) (flag : CString) (out : GetOut)
    (hf : flag ≠ []) (h1 : dirLookup ctx.stateDir flag = Option.none)
    (h2 : dirLookup ctx.defaultDir flag = Option.none) :
    chkconfigStateGet ctx flag out =
      (CHKCONFIG_STATUS_SUCCESS, ⟨false, Origin.none⟩) := by
  unfold chkconfigStateGet chkconfigUseDefaultDirectory
  rw [if_neg hf, h1, h2]
  cases hu : ctx.useDefaultDir with
  | false =>
    rw [if_neg (by simp)]
    simp [chkconfigStateGetPath]
  | true =>
    rw [if_pos (by simp [chkconfigStateGetPath, ENOENT, CHKCONFIG_STATUS_SUCCESS])]
    simp [chkconfigStateGetPath]

theorem copyAllDir_empty {origin : Origin} {d : Dir}
    (hn : ∀ e ∈ d, e.name ≠ []) (h0 : d.filter (fun e => e.regular) = []) :
    chkconfigStateCopyAllDir origin d = Except.ok (Option.none, 0) := by
  simp only [chkconfigStateCopyAllDir, getCountDir_ok hn, h0]
  simp

end Chkconfig

namespace Chkconfig

-- MARK: Further helper lemmas

theorem flags_nodup_of_pairwise_lt {l : List FlagStateTuple}
    (h : l.Pairwise tupleFlagLt) : (flagsOf l).Nodup := by
  unfold flagsOf
  rw [List.Nodup, List.pairwise_map]
  exact h.imp flag_ne_of_lt

theorem strncasecmp_zero_iff (p : CString) (hp : ∀ c ∈ p, tolower c = c) :
    ∀ bytes : CString,
      (strncasecmp bytes p p.length = 0 ↔
        (bytes.map tolower).take p.length = p) := by
  induction p with
  | nil =>
    intro bytes
    simp [strncasecmp]
  | cons q qs ih =>
    intro bytes
    have hq : tolower q = q := hp q (List.mem_cons_self _ _)
    have hp' := fun c hc => hp c (List.mem_cons_of_mem q hc)
    cases bytes with
    | nil => simp [strncasecmp]
    | cons b bs =>
      simp only [List.length_cons, strncasecmp, List.map_cons,
        List.take_succ_cons]
      rw [hq]
      rcases Nat.lt_trichotomy (tolower b) q with h | h | h
      · rw [if_pos h]
        constructor
        · intro hc; omega
        · intro hc
          simp only [List.cons.injEq] at hc
          omega
      · rw [if_neg (by omega), if_neg (by omega), ih hp' bs]
        constructor
        · intro hc
          rw [← h, hc]
        · intro hc
          simp only [List.cons.injEq] at hc
          exact hc.2
      · rw [if_neg (by omega), if_pos h]
        constructor
        · intro hc; omega
        · intro hc
          simp only [List.cons.injEq] at hc
          omega

theorem union_length_eq_dedup {s d : List FlagStateTuple}
    (hs : (flagsOf s).Nodup) (hd : (flagsOf d).Nodup) :
    (setUnionTuples (sortTuplesByFlag s) (sortTuplesByFlag d)).length =
      (flagsOf s ++ flagsOf d).dedup.length := by
  have hsorted := union_of_snapshots_sorted hs hd
  have hnodup := flags_nodup_of_pairwise_lt hsorted
  have hmem : ∀ f : CString,
      f ∈ flagsOf (setUnionTuples (sortTuplesByFlag s) (sortTuplesByFlag d)) ↔
        f ∈ flagsOf s ++ flagsOf d := by
    intro f
    unfold flagsOf
    simp only [List.mem_map, List.mem_append]
    constructor
    · rintro ⟨x, hx, rfl⟩
      rcases (union_of_snapshots_mem hs hd x).mp hx with h | ⟨h, _⟩
      · exact Or.inl ⟨x, h, rfl⟩
      · exact Or.inr ⟨x, h, rfl⟩
    · rintro (⟨x, hx, rfl⟩ | ⟨x, hx, rfl⟩)
      · exact ⟨x, (union_of_snapshots_mem hs hd x).mpr (Or.inl hx), rfl⟩
      · by_cases hf : x.m_flag ∈ flagsOf s
        · unfold flagsOf at hf
          rcases List.mem_map.mp hf with ⟨y, hy, hyy⟩
          exact ⟨y, (union_of_snapshots_mem hs hd y).mpr (Or.inl hy), hyy⟩
        · exact ⟨x, (union_of_snapshots_mem hs hd x).mpr (Or.inr ⟨hx, hf⟩), rfl⟩
  have hlen : (flagsOf
      (setUnionTuples (sortTuplesByFlag s) (sortTuplesByFlag d))).length =
      (setUnionTuples (sortTuplesByFlag s) (sortTuplesByFlag d)).length := by
    simp [flagsOf]
  rw [← hlen, ← List.toFinset_card_of_nodup hnodup,
    ← List.toFinset_card_of_nodup (List.nodup_dedup (flagsOf s ++ flagsOf d))]
  congr 1
  ext f
  simp only [List.mem_toFinset, List.mem_dedup]
  exact hmem f

theorem copyAll_example_eval :
    chkconfigStateCopyAll ⟨exStateDir, false, true, exDefaultDir⟩ =
      Except.ok
        (some [⟨exA, false, Origin.state⟩, ⟨exB, true, Origin.default⟩], 2) := by
  have hgs : dirGood exStateDir := by decide
  have hgd : dirGood exDefaultDir := by decide
  have hU : setUnionTuples [⟨exA, false, Origin.state⟩]
      [⟨exA, true, Origin.default⟩, ⟨exB, true, Origin.default⟩] =
      [⟨exA, false, Origin.state⟩, ⟨exB, true, Origin.default⟩] := by
    rw [setUnionTuples_cons_cons, if_neg (by decide), if_neg (by decide),
      setUnionTuples_nil]
  have hU' : setUnionTuples
      (sortTuplesByFlag (dirSnapshot Origin.state exStateDir))
      (sortTuplesByFlag (dirSnapshot Origin.default exDefaultDir)) =
      [⟨exA, false, Origin.state⟩, ⟨exB, true, Origin.default⟩] := by
    rw [show sortTuplesByFlag (dirSnapshot Origin.state exStateDir) =
        [⟨exA, false, Origin.state⟩] from rfl,
      show sortTuplesByFlag (dirSnapshot Origin.default exDefaultDir) =
        [⟨exA, true, Origin.default⟩, ⟨exB, true, Origin.default⟩] from rfl]
    exact hU
  unfold chkconfigStateCopyAll
  rw [if_neg (by simp [chkconfigUseDefaultDirectory])]
  rw [copyAllWithDefault_eq hgs hgd, copyUnion_eq, hU']
  simp

end Chkconfig

namespace Chkconfig

-- MARK: Claim theorems

/-- C1: with fallback enabled, chkconfig_state_copy_all returns the
union by flag name of the state-directory and default-directory
snapshots: a tuple is in the result exactly when it is a
state-directory tuple (that directory's state value, origin State), or
a default-directory tuple (origin Default) whose flag has no
state-directory entry, so the state directory wins on overlap and the
default duplicate is dropped; on the spec scenario (state directory
a:off, default directory a:on and b:on) the result is exactly
[(a, false, State), (b, true, Default)]. -/
theorem copy_all_fallback_union :
    (∀ (sd dd : Dir) (force : Bool), dirGood sd → dirGood dd →
      ∃ (t : Option (List FlagStateTuple)) (n : Nat),
        chkconfigStateCopyAll ⟨sd, force, true, dd⟩ = Except.ok (t, n) ∧
        ∀ x : FlagStateTuple,
          x ∈ t.getD [] ↔
            x ∈ dirSnapshot Origin.state sd ∨
              (x ∈ dirSnapshot Origin.default dd ∧
                x.m_flag ∉ flagsOf (dirSnapshot Origin.state sd))) ∧
    chkconfigStateCopyAll ⟨exStateDir, false, true, exDefaultDir⟩ =
      Except.ok
        (some [⟨exA, false, Origin.state⟩, ⟨exB, true, Origin.default⟩], 2) := by
  constructor
  · intro sd dd force hs hd
    have hctx : chkconfigStateCopyAll ⟨sd, force, true, dd⟩ =
        chkconfigStateCopyAllWithDefaultDirectory ⟨sd, force, true, dd⟩ := by
      unfold chkconfigStateCopyAll
      rw [if_neg (by simp [chkconfigUseDefaultDirectory])]
    rw [hctx, @copyAllWithDefault_eq ⟨sd, force, true, dd⟩ hs hd, copyUnion_eq]
    refine ⟨_, _, rfl, ?_⟩
    intro x
    rw [optGetD_if _ _ rfl]
    exact union_of_snapshots_mem (snapshot_flags_nodup hs.1 Origin.state)
      (snapshot_flags_nodup hd.1 Origin.default) x
  · exact copyAll_example_eval

/-- Witness for C1 at the spec scenario directories. -/
theorem copy_all_fallback_union_witness :
    dirGood exStateDir ∧ dirGood exDefaultDir ∧
      (∃ (t : Option (List FlagStateTuple)) (n : Nat),
        chkconfigStateCopyAll ⟨exStateDir, false, true, exDefaultDir⟩ =
          Except.ok (t, n) ∧
        ∀ x : FlagStateTuple,
          x ∈ t.getD [] ↔
            x ∈ dirSnapshot Origin.state exStateDir ∨
              (x ∈ dirSnapshot Origin.default exDefaultDir ∧
                x.m_flag ∉ flagsOf (dirSnapshot Origin.state exStateDir))) :=
  ⟨by decide, by decide,
    copy_all_fallback_union.1 exStateDir exDefaultDir false (by decide)
      (by decide)⟩

/-- C2: for every context whose consulted directories are readable, the
count from chkconfig_state_get_count equals the length of the tuple
array from chkconfig_state_copy_all, and with fallback enabled it is
the number of distinct flag names across the two directories (the
deduplicated union, not the sum of the per-directory counts). -/
theorem get_count_eq_copy_all_length (ctx : Context)
    (hs : dirGood ctx.stateDir) (hd : dirGood ctx.defaultDir) :
    ∃ (t : Option (List FlagStateTuple)) (n : Nat),
      chkconfigStateCopyAll ctx = Except.ok (t, n) ∧
      chkconfigStateGetCount ctx = Except.ok n ∧
      n = (t.getD []).length ∧
      (ctx.useDefaultDir = true →
        n = ((ctx.stateDir.filter (fun e => e.regular)).map (fun e => e.name)
          ++ (ctx.defaultDir.filter (fun e => e.regular)).map
            (fun e => e.name)).dedup.length) := by
  cases hu : ctx.useDefaultDir with
  | false =>
    unfold chkconfigStateCopyAll chkconfigStateGetCount
      chkconfigUseDefaultDirectory
    rw [if_pos hu, if_pos hu]
    rw [copyAllDir_eq hs, getCountDir_ok hs.1.1]
    refine ⟨_, _, rfl, rfl, ?_, ?_⟩
    · rw [optGetD_if _ _ (dirSnapshot_length Origin.state ctx.stateDir),
        dirSnapshot_length]
    · intro hc
      exact absurd hc (by simp)
  | true =>
    unfold chkconfigStateCopyAll chkconfigStateGetCount
      chkconfigUseDefaultDirectory chkconfigStateGetCountWithDefaultDirectory
    rw [if_neg (by rw [hu]; simp), if_neg (by rw [hu]; simp)]
    rw [copyAllWithDefault_eq hs hd, copyUnion_eq]
    refine ⟨_, _, rfl, rfl, ?_, ?_⟩
    · rw [optGetD_if _ _ rfl]
    · intro _
      have hcount := union_length_eq_dedup
        (snapshot_flags_nodup hs.1 Origin.state)
        (snapshot_flags_nodup hd.1 Origin.default)
      rw [flagsOf_dirSnapshot, flagsOf_dirSnapshot] at hcount
      exact hcount

/-- Witness for C2 at the spec scenario directories with fallback. -/
theorem get_count_eq_copy_all_length_witness :
    dirGood exStateDir ∧ dirGood exDefaultDir ∧
      (∃ (t : Option (List FlagStateTuple)) (n : Nat),
        chkconfigStateCopyAll ⟨exStateDir, false, true, exDefaultDir⟩ =
          Except.ok (t, n) ∧
        chkconfigStateGetCount ⟨exStateDir, false, true, exDefaultDir⟩ =
          Except.ok n ∧
        n = (t.getD []).length ∧
        (true = true →
          n = ((exStateDir.filter (fun e => e.regular)).map (fun e => e.name)
            ++ (exDefaultDir.filter (fun e => e.regular)).map
              (fun e => e.name)).dedup.length)) :=
  ⟨by decide, by decide,
    get_count_eq_copy_all_length ⟨exStateDir, false, true, exDefaultDir⟩
      (by decide) (by decide)⟩

/-- C3: with fallback enabled, any tuple array returned by
chkconfig_state_copy_all from well-formed directory snapshots has
pairwise distinct flags and is sorted by byte-lexicographic (strcmp)
flag comparison. -/
theorem copy_all_fallback_sorted_nodup (sd dd : Dir) (force : Bool)
    (t : Option (List FlagStateTuple)) (n : Nat)
    (hs : dirWF sd) (hd : dirWF dd)
    (h : chkconfigStateCopyAll ⟨sd, force, true, dd⟩ = Except.ok (t, n)) :
    (flagsOf (t.getD [])).Nodup ∧
      (t.getD []).Pairwise (fun a b => strcmp a.m_flag b.m_flag < 0) := by
  have hctx : chkconfigStateCopyAll ⟨sd, force, true, dd⟩ =
      chkconfigStateCopyAllWithDefaultDirectory ⟨sd, force, true, dd⟩ := by
    unfold chkconfigStateCopyAll
    rw [if_neg (by simp [chkconfigUseDefaultDirectory])]
  rw [hctx] at h
  unfold chkconfigStateCopyAllWithDefaultDirectory at h
  split at h
  · exact Except.noConfusion h
  · rename_i dres hdres
    split at h
    · exact Except.noConfusion h
    · rename_i sres hsres
      have hdi := copyAllDir_inv hdres hd.2.2
      have hsi := copyAllDir_inv hsres hs.2.2
      rw [copyUnion_eq] at h
      simp only [Except.ok.injEq, Prod.mk.injEq] at h
      rw [← h.1, optGetD_if _ _ rfl]
      have hsorted : (setUnionTuples (sortTuplesByFlag (sres.1.getD []))
          (sortTuplesByFlag (dres.1.getD []))).Pairwise tupleFlagLt := by
        rw [hsi.1, hdi.1]
        exact union_of_snapshots_sorted (snapshot_flags_nodup hs Origin.state)
          (snapshot_flags_nodup hd Origin.default)
      exact ⟨flags_nodup_of_pairwise_lt hsorted, hsorted⟩

/-- Witness for C3 at the spec scenario directories. -/
theorem copy_all_fallback_sorted_nodup_witness :
    dirWF exStateDir ∧ dirWF exDefaultDir ∧
      chkconfigStateCopyAll ⟨exStateDir, false, true, exDefaultDir⟩ =
        Except.ok
          (some [⟨exA, false, Origin.state⟩, ⟨exB, true, Origin.default⟩],
           2) ∧
      ((flagsOf ((some [⟨exA, false, Origin.state⟩,
          ⟨exB, true, Origin.default⟩] : Option (List FlagStateTuple)).getD
            [])).Nodup ∧
        ((some [⟨exA, false, Origin.state⟩,
          ⟨exB, true, Origin.default⟩] : Option (List FlagStateTuple)).getD
            []).Pairwise (fun a b => strcmp a.m_flag b.m_flag < 0)) :=
  ⟨by decide, by decide, copyAll_example_eval,
    copy_all_fallback_sorted_nodup exStateDir exDefaultDir false
      (some [⟨exA, false, Origin.state⟩, ⟨exB, true, Origin.default⟩]) 2
      (by decide) (by decide) copyAll_example_eval⟩

end Chkconfig

namespace Chkconfig

/-- C4 counterexample: with fallback enabled and flag x absent from
both directories, chkconfig_state_get returns success with state=false
and origin=None; the claimed negated not-found error (-ENOENT) is not
surfaced to the caller. -/
theorem state_get_double_miss_cex :
    chkconfigStateGet ⟨[], false, true, []⟩ exX ⟨true, Origin.unknown⟩ =
      (CHKCONFIG_STATUS_SUCCESS, ⟨false, Origin.none⟩) ∧
    ¬ (chkconfigStateGet ⟨[], false, true, []⟩ exX
        ⟨true, Origin.unknown⟩).1 = -ENOENT := by
  constructor
  · decide
  · decide

/-- C4 (amended): for every flag with no backing file in the state
directory and none in the default directory, with fallback enabled,
the second attempt against the default directory treats the miss as a
non-error: chkconfig_state_get returns a success status with
state=false and origin=None (the not-found code is only used
internally, on the first attempt, to trigger the fallback). -/
theorem state_get_fallback_double_miss (ctx : Context) (flag : CString)
    (out : GetOut) (hf : flag ≠ []) (_hu : ctx.useDefaultDir = true)
    (h1 : dirLookup ctx.stateDir flag = Option.none)
    (h2 : dirLookup ctx.defaultDir flag = Option.none) :
    chkconfigStateGet ctx flag out =
      (CHKCONFIG_STATUS_SUCCESS, ⟨false, Origin.none⟩) :=
  stateGet_both_missing ctx flag out hf h1 h2

/-- Witness for the amended C4 on empty directories. -/
theorem state_get_fallback_double_miss_witness :
    exX ≠ [] ∧
    (⟨[], false, true, []⟩ : Context).useDefaultDir = true ∧
    dirLookup ([] : Dir) exX = Option.none ∧
    chkconfigStateGet ⟨[], false, true, []⟩ exX ⟨true, Origin.unknown⟩ =
      (CHKCONFIG_STATUS_SUCCESS, ⟨false, Origin.none⟩) :=
  ⟨by decide, by decide, by decide,
    state_get_fallback_double_miss ⟨[], false, true, []⟩ exX
      ⟨true, Origin.unknown⟩ (by decide) (by decide) (by decide) (by decide)⟩

/-- C5: for every flag with no backing file in either directory,
chkconfig_state_get reports state=false and origin=None in both
fallback modes, and with fallback disabled the status is success
(a missing file is not an error in that mode). -/
theorem state_get_missing_both_false_none (ctx : Context) (flag : CString)
    (out : GetOut) (hf : flag ≠ [])
    (h1 : dirLookup ctx.stateDir flag = Option.none)
    (h2 : dirLookup ctx.defaultDir flag = Option.none) :
    ((chkconfigStateGet ctx flag out).2.state = false ∧
      (chkconfigStateGet ctx flag out).2.origin = Origin.none) ∧
    (ctx.useDefaultDir = false →
      chkconfigStateGet ctx flag out =
        (CHKCONFIG_STATUS_SUCCESS, ⟨false, Origin.none⟩)) := by
  have h := stateGet_both_missing ctx flag out hf h1 h2
  rw [h]
  exact ⟨⟨rfl, rfl⟩, fun _ => rfl⟩

/-- Witness for C5 with fallback disabled on empty directories. -/
theorem state_get_missing_both_false_none_witness :
    exX ≠ [] ∧
    dirLookup ([] : Dir) exX = Option.none ∧
    (((chkconfigStateGet ⟨[], false, false, []⟩ exX
        ⟨true, Origin.unknown⟩).2.state = false ∧
      (chkconfigStateGet ⟨[], false, false, []⟩ exX
        ⟨true, Origin.unknown⟩).2.origin = Origin.none) ∧
    ((⟨[], false, false, []⟩ : Context).useDefaultDir = false →
      chkconfigStateGet ⟨[], false, false, []⟩ exX ⟨true, Origin.unknown⟩ =
        (CHKCONFIG_STATUS_SUCCESS, ⟨false, Origin.none⟩))) :=
  ⟨by decide, by decide,
    state_get_missing_both_false_none ⟨[], false, false, []⟩ exX
      ⟨true, Origin.unknown⟩ (by decide) (by decide) (by decide)⟩

/-- C6 counterexample: the flag x in the state directory holds
malformed content while the default directory holds on, with fallback
enabled; chkconfig_state_get does consult the default directory and
returns success with (true, Default) instead of terminating with the
negated parse error -EINVAL. -/
theorem state_get_error_consults_default_cex :
    chkconfigStateGet ⟨malformedStateDir, false, true, onDefaultDir⟩ exX
      ⟨false, Origin.unknown⟩ =
        (CHKCONFIG_STATUS_SUCCESS, ⟨true, Origin.default⟩) ∧
    ¬ (chkconfigStateGet ⟨malformedStateDir, false, true, onDefaultDir⟩ exX
        ⟨false, Origin.unknown⟩).1 = -EINVAL := by
  constructor
  · decide
  · decide

/-- C6 (amended): with fallback disabled, a state-directory open error
other than not-found, or malformed content, terminates
chkconfig_state_get with that negated code; with fallback enabled, ANY
failing first attempt (not only not-found) is followed by a second
attempt against the default directory whose outcome is what the caller
receives. -/
theorem state_get_error_fallback_behavior (ctx : Context) (flag : CString)
    (out : GetOut) (hf : flag ≠ []) :
    (ctx.useDefaultDir = false →
      ∀ en : DirEnt, dirLookup ctx.stateDir flag = some en →
        (∀ er : Int, en.file = FileView.inaccessible er →
          chkconfigStateGet ctx flag out = (-er, out)) ∧
        (∀ bytes : List Nat, en.file = FileView.content bytes → bytes ≠ [] →
          ∀ r : Int, chkconfigStateStringGetState bytes = Except.error r →
            chkconfigStateGet ctx flag out = (r, ⟨false, out.origin⟩))) ∧
    (ctx.useDefaultDir = true →
      (chkconfigStateGetPath Origin.state true
        ((dirLookup ctx.stateDir flag).map (fun e => e.file)) out).1 <
          CHKCONFIG_STATUS_SUCCESS →
      chkconfigStateGet ctx flag out =
        chkconfigStateGetPath Origin.default false
          ((dirLookup ctx.defaultDir flag).map (fun e => e.file))
          (chkconfigStateGetPath Origin.state true
            ((dirLookup ctx.stateDir flag).map (fun e => e.file)) out).2) := by
  constructor
  · intro hu en hen
    unfold chkconfigStateGet chkconfigUseDefaultDirectory
    rw [if_neg hf, hu, hen]
    rw [if_neg (by simp)]
    constructor
    · intro er her
      simp only [Option.map_some', her]
      simp [chkconfigStateGetPath]
    · intro bytes hbytes hne r hr
      simp only [Option.map_some', hbytes, chkconfigStateGetPath]
      rw [if_pos (List.length_pos.mpr hne), hr]
  · intro hu hfail
    unfold chkconfigStateGet chkconfigUseDefaultDirectory
    rw [if_neg hf, hu]
    rw [if_pos ⟨hfail, rfl⟩]
    simp

/-- Witness for the amended C6: permission error with fallback
disabled, and the malformed-content scenario with fallback enabled. -/
theorem state_get_error_fallback_behavior_witness :
    exX ≠ [] ∧
    ((⟨malformedStateDir, false, true, onDefaultDir⟩ : Context).useDefaultDir
        = true) ∧
    (chkconfigStateGetPath Origin.state true
      ((dirLookup malformedStateDir exX).map (fun e => e.file))
      ⟨false, Origin.unknown⟩).1 < CHKCONFIG_STATUS_SUCCESS ∧
    chkconfigStateGet ⟨malformedStateDir, false, true, onDefaultDir⟩ exX
      ⟨false, Origin.unknown⟩ =
      chkconfigStateGetPath Origin.default false
        ((dirLookup onDefaultDir exX).map (fun e => e.file))
        (chkconfigStateGetPath Origin.state true
          ((dirLookup malformedStateDir exX).map (fun e => e.file))
          ⟨false, Origin.unknown⟩).2 :=
  ⟨by decide, by decide, by decide,
    (state_get_error_fallback_behavior
      ⟨malformedStateDir, false, true, onDefaultDir⟩ exX
      ⟨false, Origin.unknown⟩ (by decide)).2 (by decide) (by decide)⟩

end Chkconfig

namespace Chkconfig

theorem copyUnion_nil :
    chkconfigFlagStateTupleCopyUnion [] [] = Except.ok (Option.none, 0) := by
  rw [copyUnion_eq]
  rw [show sortTuplesByFlag ([] : List FlagStateTuple) = [] from rfl]
  rw [setUnionTuples_nil]
  simp

/-- C7: for every backing file, content whose lowercase form begins
with the two bytes of "on" reads as state true (the ONNO quirk is the
witness), content whose lowercase form begins with the three bytes of
"off" reads as false, a zero-length file reads as false without error,
and any other content fails parsing with the invalid-argument error
-EINVAL. -/
theorem state_file_parse_spec :
    (∀ (bytes : List Nat) (origin : Origin) (err : Bool) (z : GetOut),
      (bytes.map tolower).take 2 = sOnStateString →
        chkconfigStateGetPath origin err (some (FileView.content bytes)) z =
          (CHKCONFIG_STATUS_SUCCESS, ⟨true, origin⟩)) ∧
    (∀ (bytes : List Nat) (origin : Origin) (err : Bool) (z : GetOut),
      (bytes.map tolower).take 3 = sOffStateString →
        chkconfigStateGetPath origin err (some (FileView.content bytes)) z =
          (CHKCONFIG_STATUS_SUCCESS, ⟨false, origin⟩)) ∧
    (∀ (origin : Origin) (err : Bool) (z : GetOut),
      chkconfigStateGetPath origin err (some (FileView.content [])) z =
        (CHKCONFIG_STATUS_SUCCESS, ⟨false, origin⟩)) ∧
    (∀ bytes : List Nat, bytes ≠ [] →
      (bytes.map tolower).take 2 ≠ sOnStateString →
      (bytes.map tolower).take 3 ≠ sOffStateString →
      chkconfigStateStringGetState bytes = Except.error (-EINVAL) ∧
      ∀ (origin : Origin) (err : Bool) (z : GetOut),
        chkconfigStateGetPath origin err (some (FileView.content bytes)) z =
          (-EINVAL, ⟨false, z.origin⟩)) := by
  have hOn := fun bytes =>
    strncasecmp_zero_iff sOnStateString (by decide) bytes
  have hOff := fun bytes =>
    strncasecmp_zero_iff sOffStateString (by decide) bytes
  refine ⟨?_, ?_, ?_, ?_⟩
  · intro bytes origin err z hpre
    have hl := congrArg List.length hpre
    simp [sOnStateString] at hl
    have hlen : 0 < bytes.length := by omega
    have hparse : chkconfigStateStringGetState bytes = Except.ok true := by
      unfold chkconfigStateStringGetState
      rw [if_pos ((hOn bytes).mpr hpre)]
    simp only [chkconfigStateGetPath]
    rw [if_pos hlen, hparse]
  · intro bytes origin err z hpre
    have hl := congrArg List.length hpre
    simp [sOffStateString] at hl
    have hlen : 0 < bytes.length := by omega
    have h2 : (bytes.map tolower).take 2 = [111, 102] := by
      have ht : (bytes.map tolower).take 2 =
          ((bytes.map tolower).take 3).take 2 := by
        rw [List.take_take]
        norm_num
      rw [ht, hpre]
      decide
    have hnoton :
        ¬ strncasecmp bytes sOnStateString sOnStateString.length = 0 := by
      intro hc
      have hc' := (hOn bytes).mp hc
      rw [show sOnStateString.length = 2 from rfl, h2] at hc'
      exact absurd hc' (by decide)
    have hparse : chkconfigStateStringGetState bytes = Except.ok false := by
      unfold chkconfigStateStringGetState
      rw [if_neg hnoton, if_pos ((hOff bytes).mpr hpre)]
    simp only [chkconfigStateGetPath]
    rw [if_pos hlen, hparse]
  · intro origin err z
    simp [chkconfigStateGetPath]
  · intro bytes hne hn2 hn3
    have hparse :
        chkconfigStateStringGetState bytes = Except.error (-EINVAL) := by
      unfold chkconfigStateStringGetState
      rw [if_neg (fun hc => hn2 ((hOn bytes).mp hc)),
        if_neg (fun hc => hn3 ((hOff bytes).mp hc))]
    refine ⟨hparse, ?_⟩
    intro origin err z
    simp only [chkconfigStateGetPath]
    rw [if_pos (List.length_pos.mpr hne), hparse]

/-- Witness for C7: the file content "ONNO" parses as true by the
case-insensitive starts-with match on "on". -/
theorem state_file_parse_spec_witness :
    ([79, 78, 78, 79].map tolower).take 2 = sOnStateString ∧
    chkconfigStateGetPath Origin.state false
      (some (FileView.content [79, 78, 78, 79])) ⟨false, Origin.unknown⟩ =
        (CHKCONFIG_STATUS_SUCCESS, ⟨true, Origin.state⟩) :=
  ⟨by decide,
    state_file_parse_spec.1 [79, 78, 78, 79] Origin.state false
      ⟨false, Origin.unknown⟩ (by decide)⟩

/-- C8: setting a flag with no existing backing file fails with
-ENOENT and leaves the state directory unchanged when force-state is
off; with force-state on it succeeds and creates the backing file
containing the state string and a newline, which for true is
"on" and the newline byte. -/
theorem state_set_force_semantics (ctx : Context) (flag : CString)
    (state : Bool) (hf : flag ≠ [])
    (h : dirLookup ctx.stateDir flag = Option.none) :
    (ctx.forceState = false →
      chkconfigStateSet ctx flag state = (-ENOENT, ctx.stateDir)) ∧
    (ctx.forceState = true →
      chkconfigStateSet ctx flag state =
        (CHKCONFIG_STATUS_SUCCESS, ctx.stateDir ++
          [⟨flag, true,
            FileView.content (chkconfigStateGetStateString state ++ [10])⟩])) ∧
    chkconfigStateGetStateString true ++ [10] = [111, 110, 10] := by
  unfold chkconfigStateSet
  rw [if_neg hf, h]
  refine ⟨?_, ?_, by decide⟩
  · intro hforce
    simp [hforce]
  · intro hforce
    simp [hforce]

/-- Witness for C8: without force the set fails and creates nothing;
with force it creates the file containing on and a newline. -/
theorem state_set_force_semantics_witness :
    exX ≠ [] ∧ dirLookup ([] : Dir) exX = Option.none ∧
    chkconfigStateSet ⟨[], false, false, []⟩ exX true = (-ENOENT, []) ∧
    chkconfigStateSet ⟨[], true, false, []⟩ exX true =
      (CHKCONFIG_STATUS_SUCCESS,
        [⟨exX, true, FileView.content [111, 110, 10]⟩]) :=
  ⟨by decide, by decide,
    (state_set_force_semantics ⟨[], false, false, []⟩ exX true (by decide)
      (by decide)).1 rfl,
    (state_set_force_semantics ⟨[], true, false, []⟩ exX true (by decide)
      (by decide)).2.1 rfl⟩

/-- C9: when every consulted directory holds no regular file,
chkconfig_state_copy_all succeeds with a null tuple array
(Option.none, not an allocated empty array) and count zero, in both
fallback modes. -/
theorem copy_all_zero_flags (ctx : Context)
    (hs : ∀ e ∈ ctx.stateDir, e.name ≠ [])
    (hs0 : ctx.stateDir.filter (fun e => e.regular) = [])
    (hdn : ctx.useDefaultDir = true → ∀ e ∈ ctx.defaultDir, e.name ≠ [])
    (hd0 : ctx.useDefaultDir = true →
      ctx.defaultDir.filter (fun e => e.regular) = []) :
    chkconfigStateCopyAll ctx = Except.ok (Option.none, 0) := by
  unfold chkconfigStateCopyAll chkconfigUseDefaultDirectory
  cases hu : ctx.useDefaultDir with
  | false =>
    rw [if_pos rfl]
    exact copyAllDir_empty hs hs0
  | true =>
    rw [if_neg (by simp)]
    unfold chkconfigStateCopyAllWithDefaultDirectory
    rw [copyAllDir_empty (hdn hu) (hd0 hu), copyAllDir_empty hs hs0]
    exact copyUnion_nil

/-- Witness for C9: a state directory holding only the non-regular
entry dot and an empty default directory, fallback enabled. -/
theorem copy_all_zero_flags_witness :
    (∀ e ∈ ([⟨[46], false, FileView.content []⟩] : Dir), e.name ≠ []) ∧
    ([⟨[46], false, FileView.content []⟩] : Dir).filter
      (fun e => e.regular) = [] ∧
    chkconfigStateCopyAll
      ⟨[⟨[46], false, FileView.content []⟩], false, true, []⟩ =
        Except.ok (Option.none, 0) :=
  ⟨by decide, by decide,
    copy_all_zero_flags ⟨[⟨[46], false, FileView.content []⟩], false, true, []⟩
      (by decide) (by decide) (by decide) (by decide)⟩

/-- C10: chkconfig_flag_state_tuples_init rejects a zero count with
-EINVAL before allocating, and any positive count succeeds with an
array of exactly that many zero-initialized tuples. -/
theorem tuples_init_zero_einval :
    chkconfigFlagStateTuplesInit 0 = Except.error (-EINVAL) ∧
    ∀ n : Nat, 0 < n → ∃ ts : List FlagStateTuple,
      chkconfigFlagStateTuplesInit n = Except.ok ts ∧ ts.length = n := by
  constructor
  · rfl
  · intro n hn
    refine ⟨List.replicate n ⟨[], false, Origin.unknown⟩, ?_,
      List.length_replicate _ _⟩
    unfold chkconfigFlagStateTuplesInit
    rw [if_pos hn]

/-- Witness for C10 at count three. -/
theorem tuples_init_zero_einval_witness :
    chkconfigFlagStateTuplesInit 0 = Except.error (-EINVAL) ∧
    (0 < 3 ∧ ∃ ts : List FlagStateTuple,
      chkconfigFlagStateTuplesInit 3 = Except.ok ts ∧ ts.length = 3) :=
  ⟨tuples_init_zero_einval.1, by decide, tuples_init_zero_einval.2 3 (by decide)⟩

end Chkconfig
